import Mathlib

/-!
Verification of the local staging and commit subsystem of the xpload
command-line client (src/tools/xpload.py), as a shallow embedding in Lean.

Stage files are modelled as `Option (List _)` values: `none` is an absent
file (Python raises OSError, the code silently starts from an empty list),
`some l` is a file holding the JSON array `l`.  Exceptions raised by the
Python code are modelled with `Except String`.
-/

namespace Xpload

/-- A staged tag record, one element of the JSON array in .xpload/tags.json
(fields name, type, status, domains, as written by add_tag). -/
structure TagRecord where
  name : String
  type : String
  status : String
  domains : List String
deriving DecidableEq, Repr

/-- A staged payload entry (fields path, start, end of one element of a
StagedPIL payloads array).  Python `end=None` is `none`; the field `end` is
a Lean keyword, hence the name `end_`. -/
structure PayloadEntry where
  path : String
  start : Int
  end_ : Option Int
deriving DecidableEq, Repr

/-- A staged payload interval list, one element of the JSON array in
.xpload/pils.json (fields tag, domain, payloads). -/
structure PilRecord where
  tag : String
  domain : String
  payloads : List PayloadEntry
deriving DecidableEq, Repr

/-- Python truthiness of the optional `end` argument of add_pil:
`if end:` is taken when `end` is neither None nor 0. -/
def pyTruthy : Option Int → Bool
  | none => false
  | some v => v ≠ 0

/-- An add_tag call matches an existing staged tag on its name
(`tag['name'] == tag_name` in the list comprehensions of add_tag). -/
def tagKey (tag_name : String) (tag : TagRecord) : Bool :=
  tag.name = tag_name

/-- Embedding of add_tag (src/tools/xpload.py:280-307).  The argument
`stage` is the current content of .xpload/tags.json; the result is the new
file content on success, or the message of the raised exception.
`list(set(tag_domains))` deduplicates the domains (the spec treats the
order as irrelevant); it is modelled with `List.dedup`. -/
def add_tag (stage : Option (List TagRecord)) (tag_name tag_type tag_status : String)
    (tag_domains : List String) : Except String (List TagRecord) :=
  let tag_domains := tag_domains.dedup
  let tags := stage.getD []
  let existing_tags := tags.filter (tagKey tag_name)
  if 2 ≤ existing_tags.length then
    Except.error "Found invalid tags stage. Only one entry can be staged"
  else
    let tags := tags.filter (fun tag => !(tagKey tag_name tag))
    Except.ok (tags ++ [⟨tag_name, tag_type, tag_status, tag_domains⟩])

/-- The tags stage file after an add_tag call: on success the new content is
written with write_text; a raised exception leaves the file as it was. -/
def add_tag_run (stage : Option (List TagRecord)) (tag_name tag_type tag_status : String)
    (tag_domains : List String) : Option (List TagRecord) :=
  match add_tag stage tag_name tag_type tag_status tag_domains with
  | Except.ok l => some l
  | Except.error _ => stage

/-- An add_pil call matches an existing staged pil on the (tag, domain) pair. -/
def pilKey (tag domain : String) (pil : PilRecord) : Bool :=
  pil.tag = tag && pil.domain = domain

/-- A payload entry matches the requested interval on the (start, end) pair;
the filter in add_pil keeps `pld['start'] != start or pld['end'] != end`,
which is the negation of this key. -/
def intervalKey (start : Int) (end_ : Option Int) (pld : PayloadEntry) : Bool :=
  pld.start = start && pld.end_ = end_

/-- The payloads of the first staged pil matching (tag, domain), or [] when
none matches: the value of `pils.pop(existing_pils[0])['payloads'] if
existing_pils else []` in add_pil (the pop itself is `List.eraseP` below). -/
def oldPayloads (pils : List PilRecord) (tag domain : String) : List PayloadEntry :=
  match pils.find? (pilKey tag domain) with
  | some pil => pil.payloads
  | none => []

/-- The input validation of add_pil: `if end: assert start > 0 and end >
start` raises AssertionError exactly when `end` is truthy and the asserted
conjunction fails. -/
def assertFails (start : Int) (end_ : Option Int) : Bool :=
  pyTruthy end_ && !(0 < start && start < end_.getD 0)

/-- Embedding of add_pil (src/tools/xpload.py:310-342).  The assertion is
`assertFails`; `pils.pop(existing_pils[0])` removes the first record
matching (tag, domain); it is modelled with `oldPayloads` and
`List.eraseP`. -/
def add_pil (stage : Option (List PilRecord)) (tag domain : String) (payload : String)
    (start : Int) (end_ : Option Int) : Except String (List PilRecord) :=
  if assertFails start end_ then
    Except.error "start must be greater than zero, end must be greater than start"
  else
    let pils := stage.getD []
    let existing_pils := pils.filter (pilKey tag domain)
    if 2 ≤ existing_pils.length then
      Except.error "Found invalid pils stage. Only one entry can be staged"
    else
      let payloads := oldPayloads pils tag domain
      let pils := pils.eraseP (pilKey tag domain)
      let payloads := payloads.filter (fun pld => !(intervalKey start end_ pld))
      Except.ok (pils ++ [⟨tag, domain, payloads ++ [⟨payload, start, end_⟩]⟩])

/-- The pils stage file after an add_pil call (exception leaves it unchanged). -/
def add_pil_run (stage : Option (List PilRecord)) (tag domain : String) (payload : String)
    (start : Int) (end_ : Option Int) : Option (List PilRecord) :=
  match add_pil stage tag domain payload start end_ with
  | Except.ok l => some l
  | Except.error _ => stage

/-- The stage invariant for tags: no two records share a name. -/
def uniqueTagNames (l : List TagRecord) : Prop :=
  l.Pairwise (fun a b => a.name ≠ b.name)

instance (l : List TagRecord) : Decidable (uniqueTagNames l) :=
  inferInstanceAs (Decidable (l.Pairwise _))

/-- The stage invariant for pils: no two records share the (tag, domain) key. -/
def uniquePilKeys (l : List PilRecord) : Prop :=
  l.Pairwise (fun a b => a.tag ≠ b.tag ∨ a.domain ≠ b.domain)

instance (l : List PilRecord) : Decidable (uniquePilKeys l) :=
  inferInstanceAs (Decidable (l.Pairwise _))

/-- The intra-pil invariant: no two payload entries share the (start, end) pair. -/
def uniqueIntervals (l : List PayloadEntry) : Prop :=
  l.Pairwise (fun a b => a.start ≠ b.start ∨ a.end_ ≠ b.end_)

instance (l : List PayloadEntry) : Decidable (uniqueIntervals l) :=
  inferInstanceAs (Decidable (l.Pairwise _))

/-! ### Generic lemmas about filtering with a unique key -/

/-- A pairwise-distinct list has at most one element matching a key that
forces equality under the pairwise relation. -/
theorem length_filter_le_one {α : Type} {R : α → α → Prop} {p : α → Bool}
    (hcomp : ∀ a b, p a = true → p b = true → ¬ R a b) :
    ∀ {l : List α}, l.Pairwise R → (l.filter p).length ≤ 1
  | [], _ => by simp
  | a :: t, h => by
    rcases List.pairwise_cons.mp h with ⟨ha, ht⟩
    by_cases hpa : p a = true
    · have htnil : t.filter p = [] := by
        rw [List.filter_eq_nil_iff]
        intro b hb hpb
        exact hcomp a b hpa hpb (ha b hb)
      simp [List.filter_cons, hpa, htnil]
    · simpa [List.filter_cons, hpa] using length_filter_le_one hcomp ht

/-- Erasing the first match from a list with at most one match leaves no match. -/
theorem filter_eraseP_eq_nil {α : Type} {p : α → Bool} :
    ∀ {l : List α}, (l.filter p).length ≤ 1 → (l.eraseP p).filter p = []
  | [], _ => rfl
  | a :: t, h => by
    by_cases hpa : p a = true
    · have htnil : t.filter p = [] := by
        have hlen : (List.filter p (a :: t)).length ≤ 1 := h
        rw [List.filter_cons_of_pos hpa] at hlen
        simp only [List.length_cons] at hlen
        exact List.length_eq_zero.mp (by omega)
      rw [List.eraseP_cons_of_pos hpa]
      exact htnil
    · have hlen : (t.filter p).length ≤ 1 := by
        have hlen0 : (List.filter p (a :: t)).length ≤ 1 := h
        rwa [List.filter_cons_of_neg (by simpa using hpa)] at hlen0
      rw [List.eraseP_cons_of_neg (by simpa using hpa), List.filter_cons_of_neg (by simpa using hpa)]
      exact filter_eraseP_eq_nil hlen

/-! ### C1: add_tag keeps at most one record per name and replaces wholesale -/

/-- The tag commands of a sequence of add_tag invocations. -/
structure TagCmd where
  name : String
  type : String
  status : String
  domains : List String

/-- The tags stage file produced by a sequence of add_tag calls starting
with no stage. -/
def runTagAdds (cmds : List TagCmd) : Option (List TagRecord) :=
  cmds.foldl (fun st c => add_tag_run st c.name c.type c.status c.domains) none

theorem length_filter_tagKey_le_one (stage : List TagRecord) (n : String)
    (h : uniqueTagNames stage) : (stage.filter (tagKey n)).length ≤ 1 := by
  refine length_filter_le_one (fun a b hpa hpb => ?_) h
  simp only [tagKey, decide_eq_true_eq] at hpa hpb
  simp [hpa, hpb]

theorem add_tag_ok (stage : Option (List TagRecord)) (n t s : String) (d : List String)
    (h : ((stage.getD []).filter (tagKey n)).length ≤ 1) :
    add_tag stage n t s d =
      Except.ok ((stage.getD []).filter (fun r => !(tagKey n r)) ++ [⟨n, t, s, d.dedup⟩]) := by
  have hlt : ¬ 2 ≤ ((stage.getD []).filter (tagKey n)).length := by omega
  simp [add_tag, hlt]

theorem uniqueTagNames_upd (stage : List TagRecord) (n t s : String) (d : List String)
    (h : uniqueTagNames stage) :
    uniqueTagNames (stage.filter (fun r => !(tagKey n r)) ++ [⟨n, t, s, d⟩]) := by
  rw [uniqueTagNames, List.pairwise_append]
  refine ⟨h.filter _, by simp, fun a ha b hb => ?_⟩
  rcases List.mem_filter.mp ha with ⟨-, hkey⟩
  simp only [Bool.not_eq_true', tagKey, decide_eq_false_iff_not] at hkey
  simp only [List.mem_singleton] at hb
  subst hb
  simpa using hkey

theorem add_tag_step (stage : List TagRecord) (n t s : String) (d : List String)
    (h : uniqueTagNames stage) :
    ∃ l, add_tag (some stage) n t s d = Except.ok l ∧ uniqueTagNames l ∧
      l.filter (tagKey n) = [⟨n, t, s, d.dedup⟩] ∧
      l.filter (fun r => !(tagKey n r)) = stage.filter (fun r => !(tagKey n r)) := by
  refine ⟨_, add_tag_ok (some stage) n t s d (length_filter_tagKey_le_one stage n h), ?_, ?_, ?_⟩
  · exact uniqueTagNames_upd stage n t s d.dedup h
  · rw [List.filter_append, List.filter_filter]
    simp [tagKey]
  · rw [List.filter_append, List.filter_filter]
    simp [tagKey]

theorem uniqueTagNames_add_tag_run (stage : Option (List TagRecord)) (n t s : String)
    (d : List String) (h : uniqueTagNames (stage.getD [])) :
    uniqueTagNames ((add_tag_run stage n t s d).getD []) := by
  rw [add_tag_run, add_tag_ok stage n t s d (length_filter_tagKey_le_one _ n h)]
  exact uniqueTagNames_upd _ n t s d.dedup h

theorem uniqueTagNames_foldl (cmds : List TagCmd) :
    ∀ stage : Option (List TagRecord), uniqueTagNames (stage.getD []) →
      uniqueTagNames
        ((cmds.foldl (fun st c => add_tag_run st c.name c.type c.status c.domains) stage).getD []) := by
  induction cmds with
  | nil => intro stage h; simpa using h
  | cons c cs ih =>
      intro stage h
      exact ih _ (uniqueTagNames_add_tag_run stage c.name c.type c.status c.domains h)

/-- C1: for every sequence of add_tag calls the staged tag collection holds
at most one StagedTag per name, and adding a tag whose name already exists
replaces that record entirely with the new name/type/status/domains (the
latest values, domains deduplicated), never merging fields: in the
resulting stage the only record with the new name is exactly the new
record, and the records with other names are those of the old stage. -/
theorem add_tag_unique_replace :
    (∀ cmds : List TagCmd, uniqueTagNames ((runTagAdds cmds).getD []))
    ∧ ∀ (stage : List TagRecord) (n t s : String) (d : List String),
        uniqueTagNames stage →
        ∃ l, add_tag (some stage) n t s d = Except.ok l ∧ uniqueTagNames l ∧
          l.filter (tagKey n) = [⟨n, t, s, d.dedup⟩] ∧
          l.filter (fun r => !(tagKey n r)) = stage.filter (fun r => !(tagKey n r)) :=
  ⟨fun cmds => uniqueTagNames_foldl cmds none (by simp [uniqueTagNames]),
   fun stage n t s d h => add_tag_step stage n t s d h⟩

/-- Witness for C1: the second add of name a (different type, status and
domains) replaces the record staged by the first add. -/
theorem add_tag_unique_replace_witness :
    uniqueTagNames ((runTagAdds [⟨"a", "t1", "s1", ["d1"]⟩, ⟨"a", "t2", "s2", ["d2", "d2"]⟩]).getD [])
    ∧ ∃ l, add_tag (some [⟨"a", "t1", "s1", ["d1"]⟩]) "a" "t2" "s2" ["d2", "d2"] = Except.ok l ∧
        uniqueTagNames l ∧
        l.filter (tagKey "a") = [⟨"a", "t2", "s2", ["d2", "d2"].dedup⟩] ∧
        l.filter (fun r => !(tagKey "a" r)) =
          [TagRecord.mk "a" "t1" "s1" ["d1"]].filter (fun r => !(tagKey "a" r)) :=
  ⟨add_tag_unique_replace.1 _,
   add_tag_unique_replace.2 [⟨"a", "t1", "s1", ["d1"]⟩] "a" "t2" "s2" ["d2", "d2"] (by decide)⟩

/-! ### C2: add_pil keeps one pil per (tag, domain), one entry per (start, end) -/

/-- The arguments of one add_pil invocation. -/
structure PilCmd where
  tag : String
  domain : String
  payload : String
  start : Int
  end_ : Option Int

/-- The pils stage file produced by a sequence of add_pil calls starting
with no stage. -/
def runPilAdds (cmds : List PilCmd) : Option (List PilRecord) :=
  cmds.foldl (fun st c => add_pil_run st c.tag c.domain c.payload c.start c.end_) none

/-- The full stage invariant for pils: unique (tag, domain) keys and, within
each record, unique (start, end) pairs. -/
def pilStageInv (l : List PilRecord) : Prop :=
  uniquePilKeys l ∧ ∀ p ∈ l, uniqueIntervals p.payloads

instance (l : List PilRecord) : Decidable (pilStageInv l) := by
  rw [pilStageInv]; infer_instance

theorem length_filter_pilKey_le_one (stage : List PilRecord) (tag dom : String)
    (h : uniquePilKeys stage) : (stage.filter (pilKey tag dom)).length ≤ 1 := by
  refine length_filter_le_one (fun a b hpa hpb => ?_) h
  simp only [pilKey, Bool.and_eq_true, decide_eq_true_eq] at hpa hpb
  simp [hpa.1, hpa.2, hpb.1, hpb.2]

theorem uniqueIntervals_oldPayloads (stage : List PilRecord) (tag dom : String)
    (h2 : ∀ p ∈ stage, uniqueIntervals p.payloads) :
    uniqueIntervals (oldPayloads stage tag dom) := by
  rw [oldPayloads]
  cases hf : stage.find? (pilKey tag dom) with
  | none => simp [uniqueIntervals]
  | some pil => exact h2 pil (List.mem_of_find?_eq_some hf)

theorem add_pil_ok (stage : Option (List PilRecord)) (tag dom pth : String) (st : Int)
    (e : Option Int) (hassert : assertFails st e = false)
    (hlen : ((stage.getD []).filter (pilKey tag dom)).length ≤ 1) :
    add_pil stage tag dom pth st e =
      Except.ok ((stage.getD []).eraseP (pilKey tag dom) ++
        [PilRecord.mk tag dom (
          (oldPayloads (stage.getD []) tag dom).filter (fun pld => !(intervalKey st e pld)) ++
            [PayloadEntry.mk pth st e])]) := by
  have hlt : ¬ 2 ≤ ((stage.getD []).filter (pilKey tag dom)).length := by omega
  simp [add_pil, hassert, hlt]

theorem pilStageInv_upd (stage : List PilRecord) (tag dom pth : String) (st : Int)
    (e : Option Int) (h1 : uniquePilKeys stage)
    (h2 : ∀ p ∈ stage, uniqueIntervals p.payloads) :
    pilStageInv (stage.eraseP (pilKey tag dom) ++
      [PilRecord.mk tag dom (
        (oldPayloads stage tag dom).filter (fun pld => !(intervalKey st e pld)) ++
          [PayloadEntry.mk pth st e])]) := by
  have hnokey : ∀ a ∈ stage.eraseP (pilKey tag dom), ¬ pilKey tag dom a = true :=
    List.filter_eq_nil_iff.mp
      (filter_eraseP_eq_nil (length_filter_pilKey_le_one stage tag dom h1))
  constructor
  · rw [uniquePilKeys, List.pairwise_append]
    refine ⟨h1.sublist (List.eraseP_sublist stage), by simp, fun a ha b hb => ?_⟩
    simp only [List.mem_singleton] at hb
    subst hb
    have hkey := hnokey a ha
    simp only [pilKey, Bool.and_eq_true, decide_eq_true_eq, not_and] at hkey
    by_cases htag : a.tag = tag
    · exact Or.inr (hkey htag)
    · exact Or.inl htag
  · intro p hp
    rcases List.mem_append.mp hp with hp | hp
    · exact h2 p ((List.eraseP_sublist stage).subset hp)
    · simp only [List.mem_singleton] at hp
      subst hp
      rw [uniqueIntervals, List.pairwise_append]
      refine ⟨(uniqueIntervals_oldPayloads stage tag dom h2).filter _, by simp,
        fun a ha b hb => ?_⟩
      rcases List.mem_filter.mp ha with ⟨-, hik⟩
      simp only [List.mem_singleton] at hb
      subst hb
      simp only [Bool.not_eq_true', intervalKey, Bool.and_eq_false_iff,
        decide_eq_false_iff_not] at hik
      simpa using hik

theorem add_pil_step (stage : List PilRecord) (tag dom pth : String) (st : Int) (e : Option Int)
    (hassert : assertFails st e = false)
    (h1 : uniquePilKeys stage) (h2 : ∀ p ∈ stage, uniqueIntervals p.payloads) :
    ∃ l : List PilRecord, add_pil (some stage) tag dom pth st e = Except.ok l ∧ pilStageInv l ∧
      l.filter (pilKey tag dom) =
        [PilRecord.mk tag dom (
          (oldPayloads stage tag dom).filter (fun pld => !(intervalKey st e pld)) ++
            [PayloadEntry.mk pth st e])] ∧
      ((oldPayloads stage tag dom).filter (fun pld => !(intervalKey st e pld)) ++
          [PayloadEntry.mk pth st e]).filter (intervalKey st e) = [PayloadEntry.mk pth st e] ∧
      ((oldPayloads stage tag dom).filter (fun pld => !(intervalKey st e pld)) ++
          [PayloadEntry.mk pth st e]).filter (fun pld => !(intervalKey st e pld)) =
        (oldPayloads stage tag dom).filter (fun pld => !(intervalKey st e pld)) := by
  have hlen := length_filter_pilKey_le_one stage tag dom h1
  have hok := add_pil_ok (some stage) tag dom pth st e hassert (by simpa using hlen)
  simp only [Option.getD_some] at hok
  have herase : (stage.eraseP (pilKey tag dom)).filter (pilKey tag dom) = [] :=
    filter_eraseP_eq_nil hlen
  refine ⟨_, hok, pilStageInv_upd stage tag dom pth st e h1 h2, ?_, ?_, ?_⟩
  · rw [List.filter_append, herase]
    simp [pilKey]
  · rw [List.filter_append, List.filter_filter]
    have hff : (oldPayloads stage tag dom).filter
        (fun a => intervalKey st e a && !(intervalKey st e a)) = [] := by
      simp
    rw [hff]
    simp [intervalKey]
  · rw [List.filter_append, List.filter_filter]
    have hbb : ∀ a : PayloadEntry,
        (!(intervalKey st e a) && !(intervalKey st e a)) = (!(intervalKey st e a)) :=
      fun a => Bool.and_self _
    simp only [hbb]
    simp [intervalKey]

theorem pilStageInv_add_pil_run (stage : Option (List PilRecord)) (tag dom pth : String)
    (st : Int) (e : Option Int) (h : pilStageInv (stage.getD [])) :
    pilStageInv ((add_pil_run stage tag dom pth st e).getD []) := by
  rcases h with ⟨h1, h2⟩
  rw [add_pil_run]
  cases hassert : assertFails st e with
  | true =>
      have herr : add_pil stage tag dom pth st e =
          Except.error "start must be greater than zero, end must be greater than start" := by
        simp [add_pil, hassert]
      rw [herr]
      exact ⟨h1, h2⟩
  | false =>
      rw [add_pil_ok stage tag dom pth st e hassert (length_filter_pilKey_le_one _ tag dom h1)]
      exact pilStageInv_upd _ tag dom pth st e h1 h2

theorem pilStageInv_foldl (cmds : List PilCmd) :
    ∀ stage : Option (List PilRecord), pilStageInv (stage.getD []) →
      pilStageInv
        ((cmds.foldl (fun st c => add_pil_run st c.tag c.domain c.payload c.start c.end_)
          stage).getD []) := by
  induction cmds with
  | nil => intro stage h; simpa using h
  | cons c cs ih =>
      intro stage h
      exact ih _ (pilStageInv_add_pil_run stage c.tag c.domain c.payload c.start c.end_ h)

/-- C2: every sequence of add_pil calls leaves at most one StagedPIL per
(tag, domain) and, within it, at most one payload entry per (start, end);
adding an entry with an existing (start, end) replaces that entry (equality
is on (start, end) only, so the path reference is silently replaced: in the
updated record the unique entry matching the pair carries the new path),
while entries with a differing (start, end) are all preserved. -/
theorem add_pil_unique_replace :
    (∀ cmds : List PilCmd, pilStageInv ((runPilAdds cmds).getD []))
    ∧ ∀ (stage : List PilRecord) (tag dom pth : String) (st : Int) (e : Option Int),
        assertFails st e = false → pilStageInv stage →
        ∃ l : List PilRecord, add_pil (some stage) tag dom pth st e = Except.ok l ∧ pilStageInv l ∧
          l.filter (pilKey tag dom) =
            [PilRecord.mk tag dom (
              (oldPayloads stage tag dom).filter (fun pld => !(intervalKey st e pld)) ++
                [PayloadEntry.mk pth st e])] ∧
          ((oldPayloads stage tag dom).filter (fun pld => !(intervalKey st e pld)) ++
              [PayloadEntry.mk pth st e]).filter (intervalKey st e) = [PayloadEntry.mk pth st e] ∧
          ((oldPayloads stage tag dom).filter (fun pld => !(intervalKey st e pld)) ++
              [PayloadEntry.mk pth st e]).filter (fun pld => !(intervalKey st e pld)) =
            (oldPayloads stage tag dom).filter (fun pld => !(intervalKey st e pld)) :=
  ⟨fun cmds => pilStageInv_foldl cmds none (by rw [pilStageInv]; simp [uniquePilKeys]),
   fun stage tag dom pth st e hassert h => add_pil_step stage tag dom pth st e hassert h.1 h.2⟩

/-- Witness for C2: re-adding the interval (1, none) for (T, D) with a new
payload path B replaces the reference to the old path A. -/
theorem add_pil_unique_replace_witness :
    pilStageInv ((runPilAdds [⟨"T", "D", "A", 1, none⟩, ⟨"T", "D", "B", 1, none⟩]).getD [])
    ∧ ∃ l : List PilRecord, add_pil (some [⟨"T", "D", [PayloadEntry.mk "A" 1 none]⟩]) "T" "D" "B" 1 none = Except.ok l ∧
        pilStageInv l ∧
        l.filter (pilKey "T" "D") =
          [PilRecord.mk "T" "D" (
            (oldPayloads [⟨"T", "D", [PayloadEntry.mk "A" 1 none]⟩] "T" "D").filter
                (fun pld => !(intervalKey 1 none pld)) ++ [PayloadEntry.mk "B" 1 none])] ∧
        ((oldPayloads [⟨"T", "D", [PayloadEntry.mk "A" 1 none]⟩] "T" "D").filter
              (fun pld => !(intervalKey 1 none pld)) ++
            [PayloadEntry.mk "B" 1 none]).filter (intervalKey 1 none) = [PayloadEntry.mk "B" 1 none] ∧
        ((oldPayloads [⟨"T", "D", [PayloadEntry.mk "A" 1 none]⟩] "T" "D").filter
              (fun pld => !(intervalKey 1 none pld)) ++
            [PayloadEntry.mk "B" 1 none]).filter (fun pld => !(intervalKey 1 none pld)) =
          (oldPayloads [⟨"T", "D", [PayloadEntry.mk "A" 1 none]⟩] "T" "D").filter
            (fun pld => !(intervalKey 1 none pld)) :=
  ⟨add_pil_unique_replace.1 _,
   add_pil_unique_replace.2 [⟨"T", "D", [PayloadEntry.mk "A" 1 none]⟩] "T" "D" "B" 1 none (by decide)
     (by decide)⟩

/-! ### C9: the add_pil input validation -/

/-- C9 counterexample: start = 0 is a non-negative integer and end = 1 is
strictly greater than start, yet add_pil raises AssertionError instead of
staging the entry, because `assert start > 0 and end > start` demands a
strictly positive start whenever end is truthy. -/
theorem add_pil_start_zero_rejected :
    add_pil none "T" "D" "p" 0 (some 1) =
      Except.error "start must be greater than zero, end must be greater than start" := by
  rfl

/-- C9 (amended): the add_pil input validation passes exactly when end is
Python-falsy (absent or 0) or when start > 0 and end > start; when it
passes, the entry is staged.  In particular start = 0 is accepted only with
a falsy end: with a nonzero end value the assertion fires even if
end > start. -/
theorem add_pil_validation (stage : List PilRecord) (tag dom pth : String) (st : Int)
    (e : Option Int) (h : pyTruthy e = false ∨ (0 < st ∧ st < e.getD 0))
    (hstage : (stage.filter (pilKey tag dom)).length ≤ 1) :
    assertFails st e = false ∧
    add_pil (some stage) tag dom pth st e =
      Except.ok (stage.eraseP (pilKey tag dom) ++
        [PilRecord.mk tag dom
          ((oldPayloads stage tag dom).filter (fun pld => !(intervalKey st e pld)) ++
            [PayloadEntry.mk pth st e])]) := by
  have hf : assertFails st e = false := by
    rw [assertFails]
    rcases h with h | h
    · simp [h]
    · simp [h.1, h.2]
  exact ⟨hf, by simpa using add_pil_ok (some stage) tag dom pth st e hf (by simpa using hstage)⟩

/-- Witness for the amended C9: start = 0 with no end value is accepted and
staged into an empty stage. -/
theorem add_pil_validation_witness :
    assertFails 0 none = false ∧
    add_pil (some []) "T" "D" "p" 0 none =
      Except.ok (List.eraseP (pilKey "T" "D") [] ++
        [PilRecord.mk "T" "D"
          ((oldPayloads [] "T" "D").filter (fun pld => !(intervalKey 0 none pld)) ++
            [PayloadEntry.mk "p" 0 none])]) :=
  add_pil_validation [] "T" "D" "p" 0 none (Or.inl (by decide)) (by decide)

/-! ### C10: a duplicated key in a loaded stage aborts the add untouched -/

/-- C10: if the loaded tags stage already has two or more records with the
target name, or the loaded pils stage has two or more records with the
target (tag, domain) pair, add_tag / add_pil raise the invalid-stage error
and leave the stage file unmodified, rather than merging or appending. -/
theorem stage_duplicate_guard :
    (∀ (stage : Option (List TagRecord)) (n t s : String) (d : List String),
        2 ≤ ((stage.getD []).filter (tagKey n)).length →
        add_tag stage n t s d =
            Except.error "Found invalid tags stage. Only one entry can be staged" ∧
          add_tag_run stage n t s d = stage)
    ∧ ∀ (stage : Option (List PilRecord)) (tag dom pth : String) (st : Int) (e : Option Int),
        assertFails st e = false →
        2 ≤ ((stage.getD []).filter (pilKey tag dom)).length →
        add_pil stage tag dom pth st e =
            Except.error "Found invalid pils stage. Only one entry can be staged" ∧
          add_pil_run stage tag dom pth st e = stage := by
  constructor
  · intro stage n t s d hdup
    have herr : add_tag stage n t s d =
        Except.error "Found invalid tags stage. Only one entry can be staged" := by
      simp [add_tag, hdup]
    exact ⟨herr, by rw [add_tag_run, herr]⟩
  · intro stage tag dom pth st e hassert hdup
    have herr : add_pil stage tag dom pth st e =
        Except.error "Found invalid pils stage. Only one entry can be staged" := by
      simp [add_pil, hassert, hdup]
    exact ⟨herr, by rw [add_pil_run, herr]⟩

/-- Witness for C10: concrete stages holding two records for the key. -/
theorem stage_duplicate_guard_witness :
    (add_tag (some [⟨"a", "t1", "s1", []⟩, ⟨"a", "t2", "s2", []⟩]) "a" "t" "s" [] =
        Except.error "Found invalid tags stage. Only one entry can be staged" ∧
      add_tag_run (some [⟨"a", "t1", "s1", []⟩, ⟨"a", "t2", "s2", []⟩]) "a" "t" "s" [] =
        some [⟨"a", "t1", "s1", []⟩, ⟨"a", "t2", "s2", []⟩])
    ∧ add_pil (some [⟨"T", "D", []⟩, ⟨"T", "D", []⟩]) "T" "D" "p" 1 none =
        Except.error "Found invalid pils stage. Only one entry can be staged" ∧
      add_pil_run (some [⟨"T", "D", []⟩, ⟨"T", "D", []⟩]) "T" "D" "p" 1 none =
        some [⟨"T", "D", []⟩, ⟨"T", "D", []⟩] :=
  ⟨stage_duplicate_guard.1 (some [⟨"a", "t1", "s1", []⟩, ⟨"a", "t2", "s2", []⟩]) "a" "t" "s" []
     (by decide),
   stage_duplicate_guard.2 (some [⟨"T", "D", []⟩, ⟨"T", "D", []⟩]) "T" "D" "p" 1 none
     (by decide) (by decide)⟩

/-! ### Payload copy: prefixes and content addressing (payload_copy, 248-277) -/

/-- stat.S_IWUSR, the owner write permission bit (octal 200). -/
def S_IWUSR : Nat := 128

/-- stat.S_IXUSR, the owner execute permission bit (octal 100). -/
def S_IXUSR : Nat := 64

/-- A candidate storage prefix as payload_copy observes it: its path, whether
pathlib reports it as existing, and the st_mode bits returned by os.stat. -/
structure RootDir where
  path : String
  dirExists : Bool
  mode : Nat
deriving DecidableEq, Repr

/-- The test of the `good_prefixes` list comprehension (line 256): the prefix
exists and `os.stat(prefix).st_mode & (stat.S_IXUSR | stat.S_IWUSR)` is
truthy, that is, the bitwise and is nonzero. -/
def goodPrefixTest (r : RootDir) : Bool :=
  r.dirExists && (r.mode &&& (S_IXUSR ||| S_IWUSR)) ≠ 0

/-- `good_prefixes` of payload_copy: the candidates passing goodPrefixTest,
in order. -/
def good_prefixes (roots : List RootDir) : List RootDir :=
  roots.filter goodPrefixTest

/-- The qualification predicate as the spec states it (section 4.2, claim C6): the
prefix exists and the process has BOTH execute and write permission on it.
Written from the claim wording, to compare with the implemented
goodPrefixTest. -/
def specPrefixQualifies (r : RootDir) : Bool :=
  r.dirExists && (r.mode &&& S_IXUSR) ≠ 0 && (r.mode &&& S_IWUSR) ≠ 0

/-- Modelled from the spec: hashlib.md5 is a library routine external to
this repository.  Spec section 4.1 requires only a fixed deterministic content
digest rendered in hex, applied identically at write-time and verify-time;
the claims depend on determinism alone, so any fixed computable digest over
the byte list is a faithful model. -/
def md5hex (bytes : List Nat) : String :=
  String.mk (Nat.toDigits 16 (bytes.foldl (fun a b => (a * 131 + b % 256 + 7) % (2 ^ 128)) 1))

/-- `payload_file.name` in pathlib: the final component of the path (the
characters after the last slash). -/
def basename (p : String) : String :=
  String.mk (p.data.foldl (fun acc c => if c = '/' then [] else acc ++ [c]) [])

/-- Line 265: `payload_name = f-string digest underscore basename`. -/
def payload_name (bytes : List Nat) (payload_file : String) : String :=
  md5hex bytes ++ "_" ++ basename payload_file

/-- The failures payload_copy raises: SourceNotFound is the FileExistsError
of line 253, NoWritablePrefix the RuntimeError of line 258 (carrying the
full candidate list), CopyIntegrityError the RuntimeError of line 275. -/
inductive CopyError where
  | sourceNotFound (file : String)
  | noWritablePrefix (candidates : List RootDir)
  | copyIntegrity (destination : String)
deriving DecidableEq, Repr

/-- Filesystem mutations performed by the real (non-dry) push operations. -/
inductive FsWrite where
  | mkdirParents (path : String)
  | copyFile (src dst : String)
  | unlinkStage (which : String)
deriving DecidableEq, Repr

instance {ε α : Type} [DecidableEq ε] [DecidableEq α] : DecidableEq (Except ε α) := fun x y =>
  match x, y with
  | Except.ok a, Except.ok b =>
      if h : a = b then isTrue (by rw [h]) else isFalse (by simp [h])
  | Except.error a, Except.error b =>
      if h : a = b then isTrue (by rw [h]) else isFalse (by simp [h])
  | Except.ok _, Except.error _ => isFalse (by simp)
  | Except.error _, Except.ok _ => isFalse (by simp)

/-- Result of payload_copy: the returned destination or raised error, plus
the filesystem writes performed (also on the integrity-error path, where
mkdir and copyfile have already happened when the re-hash fails). -/
structure CopyOut where
  result : Except CopyError String
  writes : List FsWrite
deriving DecidableEq, Repr

/-- Embedding of payload_copy (lines 248-277).  `srcBytes` is the content of
`payload_file` (`none` when the file does not exist) and `postCopy` the
bytes found at the destination when it is re-read after the copy (line
273) - an environment input, since the OS copy is not assumed faithful;
the re-hash exists to catch truncated or corrupted copies.  The code
compares the two hex digests, not the bytes. -/
def payload_copy (srcBytes : Option (List Nat)) (payload_file : String)
    (prefixes : List RootDir) (domain : String) (dry_run : Bool)
    (postCopy : List Nat) : CopyOut :=
  match srcBytes with
  | none => ⟨Except.error (CopyError.sourceNotFound payload_file), []⟩
  | some bytes =>
    match good_prefixes prefixes with
    | [] => ⟨Except.error (CopyError.noWritablePrefix prefixes), []⟩
    | pfx :: _ =>
      let destination := pfx.path ++ "/" ++ domain ++ "/" ++ payload_name bytes payload_file
      if dry_run then ⟨Except.ok destination, []⟩
      else
        let writes := [FsWrite.mkdirParents (pfx.path ++ "/" ++ domain),
          FsWrite.copyFile payload_file destination]
        if md5hex bytes = md5hex postCopy then ⟨Except.ok destination, writes⟩
        else ⟨Except.error (CopyError.copyIntegrity destination), writes⟩

/-! ### The push coordinator (push_tags, push_pils, push; lines 345-410) -/

/-- Remote mutations of the push path.  create_and_link_tag and
create_and_link_pil are code of this repository that is not under src
(only their call sites are); their interface is modelled from the spec
(section 4.5): a tag call posts name/type/status/domains, a pil call posts
tag/domain/destination basename/start/end. -/
inductive RemoteCall where
  | tagCreate (name type status : String) (domains : List String)
  | pilCreate (tag domain dest : String) (start : Int) (end_ : Option Int)
deriving DecidableEq, Repr

/-- Whether a remote call is a pil creation. -/
def RemoteCall.isPil : RemoteCall → Bool
  | RemoteCall.pilCreate _ _ _ _ _ => true
  | _ => false

/-- The world visible to push: the two stage files, the payload source files
(path and content), and the candidate prefixes of db.path. -/
structure World where
  tagsFile : Option (List TagRecord)
  pilsFile : Option (List PilRecord)
  srcFiles : List (String × List Nat)
  roots : List RootDir
deriving DecidableEq, Repr

/-- The observable outcome of a push call: the resulting world, the
filesystem writes and remote calls made (in order), and the message of the
raised exception if any. -/
structure PushOut where
  world : World
  writes : List FsWrite
  calls : List RemoteCall
  err : Option String
deriving DecidableEq, Repr

/-- The content of a payload source file, or `none` if it does not exist. -/
def srcLookup (files : List (String × List Nat)) (p : String) : Option (List Nat) :=
  match files.find? (fun f => f.1 = p) with
  | some f => some f.2
  | none => none

/-- Modelled from the spec: create_and_link_tag is not under src, and spec
section 4.5 treats any exception from the remote call as fatal.  The loop of
push_tags (lines 360-362) calls it once per staged tag; the oracle tagOk
gives each outcome.  A failing call was still issued, so it is recorded
before the loop aborts. -/
def runTagCalls (tagOk : String → Bool) : List TagRecord → List RemoteCall × Bool
  | [] => ([], true)
  | t :: ts =>
    if tagOk t.name then
      let r := runTagCalls tagOk ts
      (RemoteCall.tagCreate t.name t.type t.status t.domains :: r.1, r.2)
    else ([RemoteCall.tagCreate t.name t.type t.status t.domains], false)

/-- Embedding of push_tags (lines 345-365) over a World: a missing stage
file raises; otherwise every staged tag is pushed and the stage file is
unlinked only after all calls completed.  (The jsonschema validation of
tags_schema always passes in this typed model, where every record carries
the four required fields.) -/
def push_tags (w : World) (tagOk : String → Bool) : PushOut :=
  match w.tagsFile with
  | none => ⟨w, [], [], some "No stage found. Use add action to stage tags"⟩
  | some tags =>
    let r := runTagCalls tagOk tags
    if r.2 then
      ⟨World.mk none w.pilsFile w.srcFiles w.roots, [FsWrite.unlinkStage "tags"], r.1, none⟩
    else ⟨w, [], r.1, some "remote call failed"⟩

/-- The staged (tag, domain, payload entry) triples in push_pil iteration
order (`for pil in pils: for payload in pil.payloads`). -/
def pilEntries (pils : List PilRecord) : List (String × String × PayloadEntry) :=
  pils.flatMap (fun pil => pil.payloads.map (fun payload => (pil.tag, pil.domain, payload)))

/-- The dry-run pass of push_pil (lines 385-395 with dry_run=True): for each
entry in order, payload_copy in dry-run mode validates the local
preconditions and computes the would-be destination without touching the
filesystem.  Modelled from the spec: create_and_link_pil is not under src;
in dry-run mode it validates without persisting, and per the spec section 4.5
note the dry-run pass validates local preconditions only, so no remote
call is recorded.  The result is the first raised message, if any. -/
def dryPass (w : World) : List (String × String × PayloadEntry) → Option String
  | [] => none
  | (_, dom, e) :: rest =>
    match (payload_copy (srcLookup w.srcFiles e.path) e.path w.roots dom true []).result with
    | Except.error (CopyError.sourceNotFound f) => some ("File not found: " ++ f)
    | Except.error (CopyError.noWritablePrefix _) => some "No writable prefix provided"
    | Except.error (CopyError.copyIntegrity _) => some "Failed to copy payload file"
    | Except.ok _ => dryPass w rest

/-- The real pass of push_pil (dry_run=False): per entry, payload_copy
performs the copy (the OS copy is modelled as faithful here, so the
re-hash of line 273 passes), then create_and_link_pil - modelled from the
spec, outcome given by the pilOk oracle - is called with the destination
basename.  A failure aborts the pass, keeping the writes and calls already
made. -/
def realPass (w : World) (pilOk : String → String → Bool) :
    List (String × String × PayloadEntry) → List FsWrite × List RemoteCall × Option String
  | [] => ([], [], none)
  | (tag, dom, e) :: rest =>
    let out := payload_copy (srcLookup w.srcFiles e.path) e.path w.roots dom false
      ((srcLookup w.srcFiles e.path).getD [])
    match out.result with
    | Except.error _ => (out.writes, [], some "copy failed")
    | Except.ok dest =>
      let call := RemoteCall.pilCreate tag dom (basename dest) e.start e.end_
      if pilOk tag dom then
        let r := realPass w pilOk rest
        (out.writes ++ r.1, call :: r.2.1, r.2.2)
      else (out.writes, [call], some "remote call failed")

/-- Embedding of push_pils (lines 368-400): a missing stage file raises;
otherwise the dry pass runs over every staged entry and, only if it raised
nothing, the real pass runs; the stage file is unlinked only after the real
pass completed. -/
def push_pils (w : World) (pilOk : String → String → Bool) : PushOut :=
  match w.pilsFile with
  | none => ⟨w, [], [], some "No stage found. Use add action to stage intervals"⟩
  | some pils =>
    match dryPass w (pilEntries pils) with
    | some msg => ⟨w, [], [], some msg⟩
    | none =>
      let r := realPass w pilOk (pilEntries pils)
      match r.2.2 with
      | some msg => ⟨w, r.1, r.2.1, some msg⟩
      | none =>
        ⟨World.mk w.tagsFile none w.srcFiles w.roots,
         r.1 ++ [FsWrite.unlinkStage "pils"], r.2.1, none⟩

/-- Embedding of the top-level push (lines 403-410): NothingStaged when
neither stage file exists; otherwise push_tags runs when tags are staged
(an exception propagates immediately), then push_pils runs when pils are
staged. -/
def push (w : World) (tagOk : String → Bool) (pilOk : String → String → Bool) : PushOut :=
  if w.tagsFile = none ∧ w.pilsFile = none then
    ⟨w, [], [], some "No stage found. Use add action to stage tags and pils"⟩
  else
    let o1 := if w.tagsFile ≠ none then push_tags w tagOk else ⟨w, [], [], none⟩
    match o1.err with
    | some _ => o1
    | none =>
      if o1.world.pilsFile ≠ none then
        let o2 := push_pils o1.world pilOk
        ⟨o2.world, o1.writes ++ o2.writes, o1.calls ++ o2.calls, o2.err⟩
      else o1

/-! ### C6, C7, C8: payload_copy properties -/

/-- C6: at the failing input - a single existing prefix with user mode r-x
(octal 500 = 320: execute bit set, write bit clear) - the implemented test
accepts the prefix, because `st_mode & (S_IXUSR | S_IWUSR)` is truthy with
either bit alone, while the claim requires both execute and write, under
which no prefix qualifies and NoWritablePrefix must be raised: the dry
copy returns a destination under the unwritable prefix instead.  When no
prefix passes even the implemented test, the error does carry the full
candidate list. -/
theorem payload_copy_mode_bug :
    goodPrefixTest (RootDir.mk "/cvmfs" true 320) = true ∧
    specPrefixQualifies (RootDir.mk "/cvmfs" true 320) = false ∧
    (∃ dst, (payload_copy (some [1, 2]) "f.dat" [RootDir.mk "/cvmfs" true 320] "D" true
        []).result = Except.ok dst) ∧
    (payload_copy (some [1, 2]) "f.dat" [RootDir.mk "/x" false 448] "D" true []).result =
      Except.error (CopyError.noWritablePrefix [RootDir.mk "/x" false 448]) :=
  ⟨rfl, rfl, ⟨_, rfl⟩, rfl⟩

/-- C7: payload_copy fails with SourceNotFound when the source file does
not exist; in a real run it creates missing parent directories, copies the
file and re-hashes the written destination, failing with
CopyIntegrityError when the post-copy digest differs from the pre-copy
digest, and returning the destination path on success. -/
theorem payload_copy_behaviour :
    (∀ (pf : String) (roots : List RootDir) (dom : String) (dry : Bool) (post : List Nat),
        payload_copy none pf roots dom dry post =
          ⟨Except.error (CopyError.sourceNotFound pf), []⟩)
    ∧ (∀ (bytes : List Nat) (pf : String) (roots : List RootDir) (dom : String)
          (post : List Nat) (r : RootDir) (rest : List RootDir),
        good_prefixes roots = r :: rest → md5hex bytes ≠ md5hex post →
        payload_copy (some bytes) pf roots dom false post =
          ⟨Except.error (CopyError.copyIntegrity
              (r.path ++ "/" ++ dom ++ "/" ++ payload_name bytes pf)),
            [FsWrite.mkdirParents (r.path ++ "/" ++ dom),
             FsWrite.copyFile pf (r.path ++ "/" ++ dom ++ "/" ++ payload_name bytes pf)]⟩)
    ∧ ∀ (bytes : List Nat) (pf : String) (roots : List RootDir) (dom : String)
          (post : List Nat) (r : RootDir) (rest : List RootDir),
        good_prefixes roots = r :: rest → md5hex bytes = md5hex post →
        payload_copy (some bytes) pf roots dom false post =
          ⟨Except.ok (r.path ++ "/" ++ dom ++ "/" ++ payload_name bytes pf),
            [FsWrite.mkdirParents (r.path ++ "/" ++ dom),
             FsWrite.copyFile pf (r.path ++ "/" ++ dom ++ "/" ++ payload_name bytes pf)]⟩ := by
  refine ⟨fun pf roots dom dry post => rfl, ?_, ?_⟩
  · intro bytes pf roots dom post r rest hg hne
    simp [payload_copy, hg, hne]
  · intro bytes pf roots dom post r rest hg heq
    simp [payload_copy, hg, heq]

/-- Witness for C7: a missing source, a corrupted copy (digest of [2] read
back for written [1]), and a faithful copy. -/
theorem payload_copy_behaviour_witness :
    (payload_copy none "f.dat" [RootDir.mk "/pfx" true 448] "D" false [] =
      ⟨Except.error (CopyError.sourceNotFound "f.dat"), []⟩) ∧
    (payload_copy (some [1]) "f.dat" [RootDir.mk "/pfx" true 448] "D" false [2] =
      ⟨Except.error (CopyError.copyIntegrity
          ((RootDir.mk "/pfx" true 448).path ++ "/" ++ "D" ++ "/" ++ payload_name [1] "f.dat")),
        [FsWrite.mkdirParents ((RootDir.mk "/pfx" true 448).path ++ "/" ++ "D"),
         FsWrite.copyFile "f.dat"
           ((RootDir.mk "/pfx" true 448).path ++ "/" ++ "D" ++ "/" ++
             payload_name [1] "f.dat")]⟩) ∧
    (payload_copy (some [1]) "f.dat" [RootDir.mk "/pfx" true 448] "D" false [1] =
      ⟨Except.ok
          ((RootDir.mk "/pfx" true 448).path ++ "/" ++ "D" ++ "/" ++ payload_name [1] "f.dat"),
        [FsWrite.mkdirParents ((RootDir.mk "/pfx" true 448).path ++ "/" ++ "D"),
         FsWrite.copyFile "f.dat"
           ((RootDir.mk "/pfx" true 448).path ++ "/" ++ "D" ++ "/" ++
             payload_name [1] "f.dat")]⟩) :=
  ⟨payload_copy_behaviour.1 "f.dat" [RootDir.mk "/pfx" true 448] "D" false [],
   payload_copy_behaviour.2.1 [1] "f.dat" [RootDir.mk "/pfx" true 448] "D" [2]
     (RootDir.mk "/pfx" true 448) [] (by decide) (by decide),
   payload_copy_behaviour.2.2 [1] "f.dat" [RootDir.mk "/pfx" true 448] "D" [1]
     (RootDir.mk "/pfx" true 448) [] (by decide) (by decide)⟩

theorem append_left_cancel_str (s a b : String) (h : s ++ a = s ++ b) : a = b := by
  have hdata := congrArg String.data h
  simp only [String.data_append] at hdata
  exact String.ext (List.append_cancel_left hdata)

/-- C8: the destination name equals digest plus underscore plus basename
and is a deterministic pure function of the content bytes and the original
basename: copying the same bytes to the same domain and prefixes yields
the same destination path even from source paths differing only in their
directory, while identical bytes under different basenames yield two
distinct destination names. -/
theorem payload_name_content_addressing :
    (∀ (bytes : List Nat) (f : String),
        payload_name bytes f = md5hex bytes ++ "_" ++ basename f)
    ∧ (∀ (bytes : List Nat) (p1 p2 : String) (roots : List RootDir) (dom : String)
          (post1 post2 : List Nat), basename p1 = basename p2 →
        (payload_copy (some bytes) p1 roots dom true post1).result =
          (payload_copy (some bytes) p2 roots dom true post2).result)
    ∧ ∀ (bytes : List Nat) (f1 f2 : String), basename f1 ≠ basename f2 →
        payload_name bytes f1 ≠ payload_name bytes f2 := by
  refine ⟨fun bytes f => rfl, ?_, ?_⟩
  · intro bytes p1 p2 roots dom post1 post2 hb
    cases hg : good_prefixes roots with
    | nil => simp [payload_copy, hg]
    | cons r rest => simp [payload_copy, hg, payload_name, hb]
  · intro bytes f1 f2 hne h
    have h2 : (md5hex bytes ++ "_") ++ basename f1 = (md5hex bytes ++ "_") ++ basename f2 := by
      simpa [payload_name, String.append_assoc] using h
    exact hne (append_left_cancel_str _ _ _ h2)

/-- Witness for C8: same bytes from two directories yield one destination;
same bytes under two basenames yield different names. -/
theorem payload_name_content_addressing_witness :
    ((payload_copy (some [7]) "x/f.dat" [RootDir.mk "/pfx" true 448] "D" true []).result =
      (payload_copy (some [7]) "y/f.dat" [RootDir.mk "/pfx" true 448] "D" true [9]).result) ∧
    payload_name [7] "a.dat" ≠ payload_name [7] "b.dat" :=
  ⟨payload_name_content_addressing.2.1 [7] "x/f.dat" "y/f.dat" [RootDir.mk "/pfx" true 448]
     "D" [] [9] (by decide),
   payload_name_content_addressing.2.2 [7] "a.dat" "b.dat" (by decide)⟩

/-! ### C4: push_tags clears the stage exactly on full remote success -/

theorem runTagCalls_ok (tagOk : String → Bool) :
    ∀ tags : List TagRecord, (runTagCalls tagOk tags).2 = tags.all (fun t => tagOk t.name)
  | [] => rfl
  | t :: ts => by
    rw [runTagCalls]
    by_cases h : tagOk t.name = true
    · simp [h, runTagCalls_ok tagOk ts]
    · simp [h]

/-- C4: push_tags deletes the tags stage file iff the remote
create-and-link call completed for every staged tag; an exception from a
remote call aborts the push, leaving the tags stage file in place with its
content unchanged. -/
theorem push_tags_clear_iff (w : World) (tags : List TagRecord) (tagOk : String → Bool)
    (h : w.tagsFile = some tags) :
    ((push_tags w tagOk).world.tagsFile = none ↔ ∀ t ∈ tags, tagOk t.name = true)
    ∧ ((push_tags w tagOk).err = none ↔ ∀ t ∈ tags, tagOk t.name = true)
    ∧ ((push_tags w tagOk).err ≠ none → (push_tags w tagOk).world.tagsFile = some tags) := by
  have hok := runTagCalls_ok tagOk tags
  cases hco : (runTagCalls tagOk tags).2 with
  | false =>
      have hnall : ¬ ∀ t ∈ tags, tagOk t.name = true := by
        rw [hco] at hok
        intro hall
        rw [← List.all_eq_true, ← hok] at hall
        cases hall
      simp [push_tags, h, hco, hnall]
  | true =>
      have hall : ∀ t ∈ tags, tagOk t.name = true := by
        rw [hco] at hok
        rw [← List.all_eq_true, ← hok]
      simp [push_tags, h, hco, hall]
      exact hall

/-- Witness for C4: a one-tag stage with an always-succeeding remote. -/
theorem push_tags_clear_iff_witness :
    ((push_tags (World.mk (some [TagRecord.mk "a" "ty" "st" []]) none [] [])
        (fun _ => true)).world.tagsFile = none ↔
      ∀ t ∈ [TagRecord.mk "a" "ty" "st" []], (fun _ : String => true) t.name = true)
    ∧ ((push_tags (World.mk (some [TagRecord.mk "a" "ty" "st" []]) none [] [])
        (fun _ => true)).err = none ↔
      ∀ t ∈ [TagRecord.mk "a" "ty" "st" []], (fun _ : String => true) t.name = true)
    ∧ ((push_tags (World.mk (some [TagRecord.mk "a" "ty" "st" []]) none [] [])
        (fun _ => true)).err ≠ none →
      (push_tags (World.mk (some [TagRecord.mk "a" "ty" "st" []]) none [] [])
        (fun _ => true)).world.tagsFile = some [TagRecord.mk "a" "ty" "st" []]) :=
  push_tags_clear_iff (World.mk (some [TagRecord.mk "a" "ty" "st" []]) none [] [])
    [TagRecord.mk "a" "ty" "st" []] (fun _ => true) rfl

/-! ### C3: a missing source file aborts push in the dry run -/

theorem mem_pilEntries (pils : List PilRecord) (p : PilRecord) (e : PayloadEntry)
    (hp : p ∈ pils) (he : e ∈ p.payloads) : (p.tag, p.domain, e) ∈ pilEntries pils := by
  rw [pilEntries]
  exact List.mem_flatMap.mpr ⟨p, hp, List.mem_map.mpr ⟨e, he, rfl⟩⟩

theorem dryPass_missing (w : World) :
    ∀ entries : List (String × String × PayloadEntry),
      (∃ x ∈ entries, srcLookup w.srcFiles x.2.2.path = none) →
      ∃ msg, dryPass w entries = some msg
  | [], h => by
    rcases h with ⟨x, hx, -⟩
    cases hx
  | (tg, dom, e) :: rest, h => by
    by_cases hsrc : srcLookup w.srcFiles e.path = none
    · exact ⟨"File not found: " ++ e.path, by simp [dryPass, payload_copy, hsrc]⟩
    · rcases h with ⟨x, hx, hmiss⟩
      rcases List.mem_cons.mp hx with hhead | htail
      · rw [hhead] at hmiss
        exact absurd hmiss hsrc
      · cases hb : srcLookup w.srcFiles e.path with
        | none => exact absurd hb hsrc
        | some bytes =>
          cases hg : good_prefixes w.roots with
          | nil =>
            exact ⟨"No writable prefix provided", by simp [dryPass, payload_copy, hb, hg]⟩
          | cons r rs =>
            obtain ⟨msg, hmsg⟩ := dryPass_missing w rest ⟨x, htail, hmiss⟩
            exact ⟨msg, by simp [dryPass, payload_copy, hb, hg, hmsg]⟩

/-- C3 (amended): for a staged state with no tags staged in which some
staged PIL payload entry's source file does not exist, push performs zero
filesystem writes and zero remote calls, raises, and leaves the world - in
particular both stage files - untouched.  When tags are staged as well,
the guarantee does not hold: the tag push runs first and its remote calls
and deletion of the tags stage file happen before the PIL dry run fails
(see the counterexample). -/
theorem push_missing_source_frame (w : World) (pils : List PilRecord)
    (tagOk : String → Bool) (pilOk : String → String → Bool)
    (htags : w.tagsFile = none) (hpils : w.pilsFile = some pils)
    (hmiss : ∃ p ∈ pils, ∃ e ∈ p.payloads, srcLookup w.srcFiles e.path = none) :
    (push w tagOk pilOk).world = w ∧ (push w tagOk pilOk).writes = [] ∧
    (push w tagOk pilOk).calls = [] ∧ (push w tagOk pilOk).err ≠ none := by
  obtain ⟨p, hp, e, he, hm⟩ := hmiss
  obtain ⟨msg, hmsg⟩ :=
    dryPass_missing w (pilEntries pils) ⟨(p.tag, p.domain, e), mem_pilEntries pils p e hp he, hm⟩
  have hpp : push_pils w pilOk = ⟨w, [], [], some msg⟩ := by
    simp [push_pils, hpils, hmsg]
  have hcond : ¬ (w.tagsFile = none ∧ w.pilsFile = none) := by simp [hpils]
  simp [push, hcond, htags, hpils, hpp]

/-- Witness for the amended C3: one staged pil whose file is absent from
the source filesystem, no staged tags. -/
theorem push_missing_source_frame_witness :
    (push (World.mk none (some [PilRecord.mk "T" "D" [PayloadEntry.mk "/missing" 1 none]])
        [] [RootDir.mk "/pfx" true 448]) (fun _ => true) (fun _ _ => true)).world =
      World.mk none (some [PilRecord.mk "T" "D" [PayloadEntry.mk "/missing" 1 none]])
        [] [RootDir.mk "/pfx" true 448] ∧
    (push (World.mk none (some [PilRecord.mk "T" "D" [PayloadEntry.mk "/missing" 1 none]])
        [] [RootDir.mk "/pfx" true 448]) (fun _ => true) (fun _ _ => true)).writes = [] ∧
    (push (World.mk none (some [PilRecord.mk "T" "D" [PayloadEntry.mk "/missing" 1 none]])
        [] [RootDir.mk "/pfx" true 448]) (fun _ => true) (fun _ _ => true)).calls = [] ∧
    (push (World.mk none (some [PilRecord.mk "T" "D" [PayloadEntry.mk "/missing" 1 none]])
        [] [RootDir.mk "/pfx" true 448]) (fun _ => true) (fun _ _ => true)).err ≠ none :=
  push_missing_source_frame
    (World.mk none (some [PilRecord.mk "T" "D" [PayloadEntry.mk "/missing" 1 none]])
      [] [RootDir.mk "/pfx" true 448])
    [PilRecord.mk "T" "D" [PayloadEntry.mk "/missing" 1 none]] (fun _ => true)
    (fun _ _ => true) rfl rfl
    ⟨PilRecord.mk "T" "D" [PayloadEntry.mk "/missing" 1 none], by decide,
     PayloadEntry.mk "/missing" 1 none, by decide, by decide⟩

/-- C3 counterexample: with a tag staged alongside the pil whose source
file is missing, push makes a remote tag call and deletes the tags stage
file before the PIL dry run fails, so the claimed zero-effect guarantee
does not cover every staged state with a missing source. -/
theorem push_missing_source_counterexample :
    (push (World.mk (some [TagRecord.mk "t" "ty" "st" []])
        (some [PilRecord.mk "T" "D" [PayloadEntry.mk "/missing" 1 none]])
        [] [RootDir.mk "/pfx" true 448]) (fun _ => true) (fun _ _ => true)).calls ≠ [] ∧
    (push (World.mk (some [TagRecord.mk "t" "ty" "st" []])
        (some [PilRecord.mk "T" "D" [PayloadEntry.mk "/missing" 1 none]])
        [] [RootDir.mk "/pfx" true 448]) (fun _ => true) (fun _ _ => true)).writes ≠ [] ∧
    (push (World.mk (some [TagRecord.mk "t" "ty" "st" []])
        (some [PilRecord.mk "T" "D" [PayloadEntry.mk "/missing" 1 none]])
        [] [RootDir.mk "/pfx" true 448]) (fun _ => true) (fun _ _ => true)).world.tagsFile =
      none := by
  decide

/-! ### C5: the structure of the top-level push -/

theorem runTagCalls_no_pil (tagOk : String → Bool) :
    ∀ tags : List TagRecord, ∀ c ∈ (runTagCalls tagOk tags).1, c.isPil = false
  | [] => by simp [runTagCalls]
  | t :: ts => by
    rw [runTagCalls]
    by_cases h : tagOk t.name = true
    · simp only [h, if_true]
      intro c hc
      rcases List.mem_cons.mp hc with hc | hc
      · rw [hc]; rfl
      · exact runTagCalls_no_pil tagOk ts c hc
    · simp only [h, if_false]
      intro c hc
      rcases List.mem_cons.mp hc with hc | hc
      · rw [hc]; rfl
      · cases hc

theorem push_tags_pilsFile (w : World) (tagOk : String → Bool) :
    (push_tags w tagOk).world.pilsFile = w.pilsFile := by
  cases hw : w.tagsFile with
  | none => simp [push_tags, hw]
  | some tags =>
      cases h : (runTagCalls tagOk tags).2 with
      | true => simp [push_tags, hw, h]
      | false => simp [push_tags, hw, h]

theorem push_pils_tagsFile (w : World) (pilOk : String → String → Bool) :
    (push_pils w pilOk).world.tagsFile = w.tagsFile := by
  cases hw : w.pilsFile with
  | none => simp [push_pils, hw]
  | some pils =>
      cases hd : dryPass w (pilEntries pils) with
      | some msg => simp [push_pils, hw, hd]
      | none =>
          cases hr : (realPass w pilOk (pilEntries pils)).2.2 with
          | some msg => simp [push_pils, hw, hd, hr]
          | none => simp [push_pils, hw, hd, hr]

theorem push_tags_no_pil (w : World) (tagOk : String → Bool) :
    ∀ c ∈ (push_tags w tagOk).calls, c.isPil = false := by
  cases hw : w.tagsFile with
  | none => simp [push_tags, hw]
  | some tags =>
      cases h : (runTagCalls tagOk tags).2 with
      | true =>
          intro c hc
          refine runTagCalls_no_pil tagOk tags c ?_
          simpa [push_tags, hw, h] using hc
      | false =>
          intro c hc
          refine runTagCalls_no_pil tagOk tags c ?_
          simpa [push_tags, hw, h] using hc

/-- C5 (amended): push raises the NothingStaged error, with no effects,
when neither stage file exists; otherwise the tag push runs first when
tags are staged, and an exception there propagates immediately: the whole
call returns the tag-push outcome, whose remote calls contain no pil
creation and which leaves the pils stage file as it was, so the PIL push
is not attempted in that call (the pils stage survives for a retry).
After a tag push that raised nothing, the PIL push runs when pils are
staged, and its outcome is appended to the tag-push effects; a PIL failure
does not roll back the completed tag push, since push_pils never touches
the tags stage file. -/
theorem push_structure (w : World) (tagOk : String → Bool) (pilOk : String → String → Bool) :
    (w.tagsFile = none → w.pilsFile = none →
      push w tagOk pilOk =
        ⟨w, [], [], some "No stage found. Use add action to stage tags and pils"⟩)
    ∧ (w.tagsFile ≠ none → (push_tags w tagOk).err ≠ none →
        push w tagOk pilOk = push_tags w tagOk ∧
        (push_tags w tagOk).world.pilsFile = w.pilsFile ∧
        ∀ c ∈ (push_tags w tagOk).calls, c.isPil = false)
    ∧ (w.tagsFile ≠ none → w.pilsFile ≠ none → (push_tags w tagOk).err = none →
        push w tagOk pilOk =
          ⟨(push_pils (push_tags w tagOk).world pilOk).world,
           (push_tags w tagOk).writes ++ (push_pils (push_tags w tagOk).world pilOk).writes,
           (push_tags w tagOk).calls ++ (push_pils (push_tags w tagOk).world pilOk).calls,
           (push_pils (push_tags w tagOk).world pilOk).err⟩)
    ∧ (push_pils w pilOk).world.tagsFile = w.tagsFile := by
  refine ⟨?_, ?_, ?_, push_pils_tagsFile w pilOk⟩
  · intro htags hpils
    simp [push, htags, hpils]
  · intro htags herr
    refine ⟨?_, push_tags_pilsFile w tagOk, push_tags_no_pil w tagOk⟩
    cases herr2 : (push_tags w tagOk).err with
    | none => exact absurd herr2 herr
    | some msg =>
        have hcond : ¬ (w.tagsFile = none ∧ w.pilsFile = none) := fun hc => htags hc.1
        simp [push, hcond, htags, herr2]
  · intro htags hpils herr
    have hcond : ¬ (w.tagsFile = none ∧ w.pilsFile = none) := fun hc => htags hc.1
    have hpf : (push_tags w tagOk).world.pilsFile ≠ none := by
      rw [push_tags_pilsFile w tagOk]
      exact hpils
    simp [push, hcond, htags, herr, hpf]

/-- Witness for the amended C5, with its three scenarios at concrete
worlds: nothing staged; both staged with a failing tag remote; both staged
with an all-success remote. -/
theorem push_structure_witness :
    (push (World.mk none none [] []) (fun _ => true) (fun _ _ => true) =
      ⟨World.mk none none [] [], [], [],
       some "No stage found. Use add action to stage tags and pils"⟩)
    ∧ (push (World.mk (some [TagRecord.mk "t" "ty" "st" []])
          (some [PilRecord.mk "T" "D" [PayloadEntry.mk "f.dat" 1 none]])
          [("f.dat", [1, 2])] [RootDir.mk "/pfx" true 448]) (fun _ => false)
          (fun _ _ => true) =
        push_tags (World.mk (some [TagRecord.mk "t" "ty" "st" []])
          (some [PilRecord.mk "T" "D" [PayloadEntry.mk "f.dat" 1 none]])
          [("f.dat", [1, 2])] [RootDir.mk "/pfx" true 448]) (fun _ => false) ∧
       (push_tags (World.mk (some [TagRecord.mk "t" "ty" "st" []])
          (some [PilRecord.mk "T" "D" [PayloadEntry.mk "f.dat" 1 none]])
          [("f.dat", [1, 2])] [RootDir.mk "/pfx" true 448]) (fun _ => false)).world.pilsFile =
        some [PilRecord.mk "T" "D" [PayloadEntry.mk "f.dat" 1 none]] ∧
       ∀ c ∈ (push_tags (World.mk (some [TagRecord.mk "t" "ty" "st" []])
          (some [PilRecord.mk "T" "D" [PayloadEntry.mk "f.dat" 1 none]])
          [("f.dat", [1, 2])] [RootDir.mk "/pfx" true 448]) (fun _ => false)).calls,
        c.isPil = false)
    ∧ push (World.mk (some [TagRecord.mk "t" "ty" "st" []])
          (some [PilRecord.mk "T" "D" [PayloadEntry.mk "f.dat" 1 none]])
          [("f.dat", [1, 2])] [RootDir.mk "/pfx" true 448]) (fun _ => true)
          (fun _ _ => true) =
        ⟨(push_pils (push_tags (World.mk (some [TagRecord.mk "t" "ty" "st" []])
            (some [PilRecord.mk "T" "D" [PayloadEntry.mk "f.dat" 1 none]])
            [("f.dat", [1, 2])] [RootDir.mk "/pfx" true 448]) (fun _ => true)).world
            (fun _ _ => true)).world,
         (push_tags (World.mk (some [TagRecord.mk "t" "ty" "st" []])
            (some [PilRecord.mk "T" "D" [PayloadEntry.mk "f.dat" 1 none]])
            [("f.dat", [1, 2])] [RootDir.mk "/pfx" true 448]) (fun _ => true)).writes ++
          (push_pils (push_tags (World.mk (some [TagRecord.mk "t" "ty" "st" []])
            (some [PilRecord.mk "T" "D" [PayloadEntry.mk "f.dat" 1 none]])
            [("f.dat", [1, 2])] [RootDir.mk "/pfx" true 448]) (fun _ => true)).world
            (fun _ _ => true)).writes,
         (push_tags (World.mk (some [TagRecord.mk "t" "ty" "st" []])
            (some [PilRecord.mk "T" "D" [PayloadEntry.mk "f.dat" 1 none]])
            [("f.dat", [1, 2])] [RootDir.mk "/pfx" true 448]) (fun _ => true)).calls ++
          (push_pils (push_tags (World.mk (some [TagRecord.mk "t" "ty" "st" []])
            (some [PilRecord.mk "T" "D" [PayloadEntry.mk "f.dat" 1 none]])
            [("f.dat", [1, 2])] [RootDir.mk "/pfx" true 448]) (fun _ => true)).world
            (fun _ _ => true)).calls,
         (push_pils (push_tags (World.mk (some [TagRecord.mk "t" "ty" "st" []])
            (some [PilRecord.mk "T" "D" [PayloadEntry.mk "f.dat" 1 none]])
            [("f.dat", [1, 2])] [RootDir.mk "/pfx" true 448]) (fun _ => true)).world
            (fun _ _ => true)).err⟩ :=
  ⟨(push_structure (World.mk none none [] []) (fun _ => true) (fun _ _ => true)).1 rfl rfl,
   (push_structure (World.mk (some [TagRecord.mk "t" "ty" "st" []])
       (some [PilRecord.mk "T" "D" [PayloadEntry.mk "f.dat" 1 none]])
       [("f.dat", [1, 2])] [RootDir.mk "/pfx" true 448]) (fun _ => false)
       (fun _ _ => true)).2.1 (by decide) (by decide),
   (push_structure (World.mk (some [TagRecord.mk "t" "ty" "st" []])
       (some [PilRecord.mk "T" "D" [PayloadEntry.mk "f.dat" 1 none]])
       [("f.dat", [1, 2])] [RootDir.mk "/pfx" true 448]) (fun _ => true)
       (fun _ _ => true)).2.2.1 (by decide) (by decide) (by decide)⟩

/-- C5 counterexample: both stages present, the remote tag call fails, and
the pil stage would push cleanly on its own - yet push aborts with the tag
error without making any pil remote call and without touching the pils
stage, while the same call with only the pil stage succeeds: a failure in
the tag push does block the PIL push within the same push call. -/
theorem push_tag_failure_blocks_pils :
    (push (World.mk (some [TagRecord.mk "t" "ty" "st" []])
        (some [PilRecord.mk "T" "D" [PayloadEntry.mk "f.dat" 1 none]])
        [("f.dat", [1, 2])] [RootDir.mk "/pfx" true 448]) (fun _ => false)
        (fun _ _ => true)).calls = [RemoteCall.tagCreate "t" "ty" "st" []] ∧
    (push (World.mk (some [TagRecord.mk "t" "ty" "st" []])
        (some [PilRecord.mk "T" "D" [PayloadEntry.mk "f.dat" 1 none]])
        [("f.dat", [1, 2])] [RootDir.mk "/pfx" true 448]) (fun _ => false)
        (fun _ _ => true)).err ≠ none ∧
    (push (World.mk (some [TagRecord.mk "t" "ty" "st" []])
        (some [PilRecord.mk "T" "D" [PayloadEntry.mk "f.dat" 1 none]])
        [("f.dat", [1, 2])] [RootDir.mk "/pfx" true 448]) (fun _ => false)
        (fun _ _ => true)).world.pilsFile =
      some [PilRecord.mk "T" "D" [PayloadEntry.mk "f.dat" 1 none]] ∧
    (push (World.mk none (some [PilRecord.mk "T" "D" [PayloadEntry.mk "f.dat" 1 none]])
        [("f.dat", [1, 2])] [RootDir.mk "/pfx" true 448]) (fun _ => false)
        (fun _ _ => true)).err = none := by
  decide

end Xpload
